/-
Verification of the notion_processing pipeline (extractor / classifier /
summarizer) against its natural-language specification.

The definitions below are a shallow embedding of the Python source:
  - enums from notion_processing/models.py,
  - database rows from notion_processing/database.py,
  - the upsert loops of NotionExtractor.save_documents_to_db and
    DocumentClassifier.save_classifications_to_db,
  - DocumentClassifier.classify_document / classify_documents_batch,
  - WeeklySummarizer.get_weekly_documents / calculate_weekly_statistics /
    generate_summary / get_week_boundaries.

Modelling conventions:
  - datetimes are microseconds since 0001-01-01 00:00:00 (a Monday), as a
    Nat; this matches the arithmetic of Python datetime/timedelta used by
    get_week_boundaries (date.weekday() is Monday = 0);
  - the SQLAlchemy session is the Database value threaded through the
    upsert loop; commit publishes it, rollback discards it and returns the
    state the call started from;
  - a possible database exception is injected by a failAt parameter:
    some i raises while the i-th batch element is processed (i = batch
    length: at commit), none means no database error;
  - the LLM clients are oracles passed as function arguments returning
    Except; an error models an API failure, malformed JSON or a missing
    key, validation of the parsed fields is embedded from the source;
  - floats (confidence scores) are modelled as rationals;
  - json.dumps on the properties mapping is modelled by a deterministic
    serialization propsToJson.
-/
import Mathlib

namespace NotionProcessing

/-- DocumentType from models.py. -/
inductive DocumentType where
  | project
  | knowledge
deriving DecidableEq, Repr

/-- SubCategory from models.py. -/
inductive SubCategory where
  | feature_request
  | bug_report
  | planning
  | research
  | tutorial
  | reference
  | best_practice
  | case_study
  | documentation
deriving DecidableEq, Repr

/-- ProcessingStatus from models.py. -/
inductive ProcessingStatus where
  | pending
  | extracted
  | classified
  | failed
deriving DecidableEq, Repr

/-- The pydantic NotionDocument model (extractor output). The open-ended
properties mapping is a string-keyed map of string-rendered values. -/
structure NotionDocument where
  id : String
  title : String
  content : String
  url : String
  created_time : Nat
  last_edited_time : Nat
  parent_database_id : String
  properties : List (String × String)
deriving DecidableEq, Repr

/-- Row of the notion_documents table (database.py NotionDocumentDB);
properties is stored as serialized text. -/
structure NotionDocumentDB where
  id : String
  title : String
  content : String
  url : String
  created_time : Nat
  last_edited_time : Nat
  parent_database_id : String
  properties : String
  created_at : Nat
  updated_at : Nat
deriving DecidableEq, Repr

/-- Row of the document_classifications table (database.py
DocumentClassificationDB). -/
structure DocumentClassificationDB where
  document_id : String
  document_type : DocumentType
  sub_category : SubCategory
  confidence_score : ℚ
  classification_reason : String
  classified_at : Nat
  created_at : Nat
deriving DecidableEq, Repr

/-- Row of the processing_records table (database.py ProcessingRecordDB). -/
structure ProcessingRecordDB where
  document_id : String
  status : ProcessingStatus
  extracted_at : Option Nat
  classified_at : Option Nat
  error_message : Option String
  created_at : Nat
  updated_at : Nat
deriving DecidableEq, Repr

/-- The pydantic DocumentClassification model (classifier output). -/
structure DocumentClassification where
  document_id : String
  document_type : DocumentType
  sub_category : SubCategory
  confidence_score : ℚ
  classification_reason : String
  classified_at : Nat
deriving DecidableEq, Repr

/-- The persistent store: the three tables the claims are about. -/
structure Database where
  documents : List NotionDocumentDB
  classifications : List DocumentClassificationDB
  records : List ProcessingRecordDB
deriving DecidableEq, Repr

/-- SQLAlchemy query(...).filter(...).first() followed by mutating the
returned row: replace the first element satisfying p by its image under f,
leaving the rest of the list unchanged. -/
def replaceFirst (p : α → Bool) (f : α → α) : List α → List α
  | [] => []
  | x :: xs => if p x then f x :: xs else x :: replaceFirst p f xs

/-- Models json.dumps on the properties mapping: a deterministic
serialization of the key/value pairs. -/
def propsToJson (props : List (String × String)) : String :=
  String.intercalate "," (props.map (fun kv => kv.fst ++ ":" ++ kv.snd))

/-- The field updates save_documents_to_db applies to an existing
document row (extractor.py lines 194-198): title, content,
last_edited_time, properties and the updated_at housekeeping column. -/
def updatedDocumentRow (document : NotionDocument) (now : Nat) (r : NotionDocumentDB) : NotionDocumentDB :=
  { r with
    title := document.title
    content := document.content
    last_edited_time := document.last_edited_time
    properties := propsToJson document.properties
    updated_at := now }

/-- The document row save_documents_to_db inserts when none exists
(extractor.py lines 202-211). -/
def newDocumentRow (document : NotionDocument) (now : Nat) : NotionDocumentDB :=
  { id := document.id
    title := document.title
    content := document.content
    url := document.url
    created_time := document.created_time
    last_edited_time := document.last_edited_time
    parent_database_id := document.parent_database_id
    properties := propsToJson document.properties
    created_at := now
    updated_at := now }

/-- The field updates save_documents_to_db applies to an existing
processing record (extractor.py lines 221-223). -/
def extractionRecordUpdate (now : Nat) (r : ProcessingRecordDB) : ProcessingRecordDB :=
  { r with
    status := ProcessingStatus.extracted
    extracted_at := some now
    updated_at := now }

/-- The processing record save_documents_to_db creates when none exists
(extractor.py lines 225-229); the remaining columns take their schema
defaults. -/
def newExtractionRecord (documentId : String) (now : Nat) : ProcessingRecordDB :=
  { document_id := documentId
    status := ProcessingStatus.extracted
    extracted_at := some now
    classified_at := none
    error_message := none
    created_at := now
    updated_at := now }

/-- One iteration of the loop of NotionExtractor.save_documents_to_db
(extractor.py lines 186-230): upsert the document row by id (updating
title, content, last_edited_time, properties, updated_at on the existing
row; inserting a full row otherwise), then upsert the processing record
to status EXTRACTED with extracted_at = now. -/
def processDocument (s : Database) (document : NotionDocument) (now : Nat) : Database :=
  let docs :=
    match s.documents.find? (fun r => r.id == document.id) with
    | some _ =>
        replaceFirst (fun r => r.id == document.id) (updatedDocumentRow document now) s.documents
    | none => s.documents ++ [newDocumentRow document now]
  let recs :=
    match s.records.find? (fun r => r.document_id == document.id) with
    | some _ =>
        replaceFirst (fun r => r.document_id == document.id) (extractionRecordUpdate now) s.records
    | none => s.records ++ [newExtractionRecord document.id now]
  { s with documents := docs, records := recs }

/-- The field updates save_classifications_to_db applies to an existing
classification row (classifier.py lines 168-172). -/
def updatedClassificationRow (c : DocumentClassification) (r : DocumentClassificationDB) : DocumentClassificationDB :=
  { r with
    document_type := c.document_type
    sub_category := c.sub_category
    confidence_score := c.confidence_score
    classification_reason := c.classification_reason
    classified_at := c.classified_at }

/-- The classification row save_classifications_to_db inserts when none
exists (classifier.py lines 176-183). -/
def newClassificationRow (c : DocumentClassification) (now : Nat) : DocumentClassificationDB :=
  { document_id := c.document_id
    document_type := c.document_type
    sub_category := c.sub_category
    confidence_score := c.confidence_score
    classification_reason := c.classification_reason
    classified_at := c.classified_at
    created_at := now }

/-- The field updates save_classifications_to_db applies to an existing
processing record (classifier.py lines 193-195). -/
def classificationRecordUpdate (now : Nat) (r : ProcessingRecordDB) : ProcessingRecordDB :=
  { r with
    status := ProcessingStatus.classified
    classified_at := some now
    updated_at := now }

/-- The processing record save_classifications_to_db creates when none
exists (classifier.py lines 197-201); extracted_at and error_message
take their schema defaults. -/
def newClassificationRecord (documentId : String) (now : Nat) : ProcessingRecordDB :=
  { document_id := documentId
    status := ProcessingStatus.classified
    extracted_at := none
    classified_at := some now
    error_message := none
    created_at := now
    updated_at := now }

/-- One iteration of the loop of
DocumentClassifier.save_classifications_to_db (classifier.py lines
160-202): upsert the classification row by document_id, then upsert the
processing record to status CLASSIFIED with classified_at = now. -/
def processClassification (s : Database) (c : DocumentClassification) (now : Nat) : Database :=
  let cls :=
    match s.classifications.find? (fun r => r.document_id == c.document_id) with
    | some _ =>
        replaceFirst (fun r => r.document_id == c.document_id) (updatedClassificationRow c) s.classifications
    | none => s.classifications ++ [newClassificationRow c now]
  let recs :=
    match s.records.find? (fun r => r.document_id == c.document_id) with
    | some _ =>
        replaceFirst (fun r => r.document_id == c.document_id) (classificationRecordUpdate now) s.records
    | none => s.records ++ [newClassificationRecord c.document_id now]
  { s with classifications := cls, records := recs }

/-- The loop body sequence of NotionExtractor.save_documents_to_db on the
session state, with an injected database error: failAt = some i raises
while the element at index idx = i is processed. -/
def saveDocumentsLoop (s : Database) (docs : List NotionDocument) (idx : Nat) (now : Nat) (failAt : Option Nat) : Except String Database :=
  match docs with
  | [] => Except.ok s
  | d :: rest =>
    if failAt = some idx then Except.error "database error"
    else saveDocumentsLoop (processDocument s d now) rest (idx + 1) now failAt

/-- NotionExtractor.save_documents_to_db (extractor.py lines 181-240):
runs the upsert loop on the session, then commits; any exception (in the
loop, or failAt = batch length modelling a commit failure) rolls the
session back, leaving the store as it was, and is re-raised. Returns the
resulting store state and the re-raised error, if any. -/
def save_documents_to_db (db : Database) (docs : List NotionDocument) (now : Nat) (failAt : Option Nat) : Database × Option String :=
  match saveDocumentsLoop db docs 0 now failAt with
  | Except.error e => (db, some e)
  | Except.ok s =>
    if failAt = some docs.length then (db, some "database error")
    else (s, none)

/-- The loop body sequence of
DocumentClassifier.save_classifications_to_db on the session state, with
the same injected-error convention as saveDocumentsLoop. -/
def saveClassificationsLoop (s : Database) (cs : List DocumentClassification) (idx : Nat) (now : Nat) (failAt : Option Nat) : Except String Database :=
  match cs with
  | [] => Except.ok s
  | c :: rest =>
    if failAt = some idx then Except.error "database error"
    else saveClassificationsLoop (processClassification s c now) rest (idx + 1) now failAt

/-- DocumentClassifier.save_classifications_to_db (classifier.py lines
155-212): upsert loop, commit on success, rollback and re-raise on any
exception. -/
def save_classifications_to_db (db : Database) (cs : List DocumentClassification) (now : Nat) (failAt : Option Nat) : Database × Option String :=
  match saveClassificationsLoop db cs 0 now failAt with
  | Except.error e => (db, some e)
  | Except.ok s =>
    if failAt = some cs.length then (db, some "database error")
    else (s, none)

/-- The four required keys of the JSON object classify_document parses
out of the oracle response (classifier.py lines 101-107), before
enum/range validation. An oracle that fails to produce such an object
(API error, malformed JSON, missing key, non-numeric confidence) is
modelled as returning an error instead. -/
structure RawClassification where
  document_type : String
  sub_category : String
  confidence_score : ℚ
  classification_reason : String
deriving DecidableEq, Repr

/-- DocumentType(value) from the enum values in models.py. -/
def DocumentType.fromString? : String → Option DocumentType
  | "project" => some DocumentType.project
  | "knowledge" => some DocumentType.knowledge
  | _ => none

open SubCategory in
/-- SubCategory(value) from the enum values in models.py. -/
def SubCategory.fromString? : String → Option SubCategory
  | "feature_request" => some feature_request
  | "bug_report" => some bug_report
  | "planning" => some planning
  | "research" => some research
  | "tutorial" => some tutorial
  | "reference" => some reference
  | "best_practice" => some best_practice
  | "case_study" => some case_study
  | "documentation" => some documentation
  | _ => none

open SubCategory in
/-- The sub-category set associated with each primary category, as the
spec and the classification prompt (classifier.py lines 38-50) group
them. Used to compare the validation the code performs with the
consistency the spec asserts. -/
def allowed_subcategories : DocumentType → List SubCategory
  | DocumentType.project => [feature_request, bug_report, planning, research]
  | DocumentType.knowledge => [tutorial, reference, best_practice, case_study, documentation]

/-- DocumentClassifier.classify_document (classifier.py lines 70-133):
the oracle call yields the parsed JSON object or an error; the parsed
fields are validated against the DocumentType and SubCategory
enumerations and the [0, 1] confidence range (the pydantic ge/le bounds
on DocumentClassification), and any failure raises. classified_at takes
the pydantic default utcnow, passed as now. -/
def classify_document (oracle : NotionDocumentDB → Except String RawClassification) (now : Nat) (document : NotionDocumentDB) : Except String DocumentClassification :=
  match oracle document with
  | Except.error e => Except.error e
  | Except.ok data =>
    match DocumentType.fromString? data.document_type, SubCategory.fromString? data.sub_category with
    | some dt, some sc =>
      if 0 ≤ data.confidence_score ∧ data.confidence_score ≤ 1 then
        Except.ok
          { document_id := document.id
            document_type := dt
            sub_category := sc
            confidence_score := data.confidence_score
            classification_reason := data.classification_reason
            classified_at := now }
      else Except.error "Invalid classification response"
    | _, _ => Except.error "Invalid classification response"

/-- DocumentClassifier.classify_documents_batch (classifier.py lines
135-153): iterate the documents in order; append the classification on
success, log and skip on any exception, never letting one propagate. -/
def classify_documents_batch (oracle : NotionDocumentDB → Except String RawClassification) (now : Nat) (documents : List NotionDocumentDB) : List DocumentClassification :=
  match documents with
  | [] => []
  | d :: rest =>
    match classify_document oracle now d with
    | Except.ok c => c :: classify_documents_batch oracle now rest
    | Except.error _ => classify_documents_batch oracle now rest

/-- One entry of the document_details list built by
WeeklySummarizer.get_weekly_documents (summarizer.py lines 85-95). -/
structure DocDetail where
  id : String
  title : String
  content : String
  type : DocumentType
  sub_category : SubCategory
  confidence : ℚ
  created_time : Nat
deriving DecidableEq, Repr

/-- order_by(created_time.desc()): insertion sort by descending
creation time. -/
def insertByCreatedDesc (x : DocDetail) : List DocDetail → List DocDetail
  | [] => [x]
  | y :: ys =>
    if y.created_time ≤ x.created_time then x :: y :: ys
    else y :: insertByCreatedDesc x ys

/-- Most-recent-first ordering of the weekly join result. -/
def sortByCreatedDesc : List DocDetail → List DocDetail
  | [] => []
  | x :: xs => insertByCreatedDesc x (sortByCreatedDesc xs)

/-- WeeklySummarizer.get_weekly_documents (summarizer.py lines 68-104):
inner join of documents with their classification on document id (the
code maintains at most one classification row per document), filtered to
created_time within [week_start, week_end] inclusive, most recent
first. -/
def get_weekly_documents (db : Database) (week_start week_end : Nat) : List DocDetail :=
  sortByCreatedDesc
    (db.documents.filterMap (fun doc =>
      match db.classifications.find? (fun c => c.document_id == doc.id) with
      | some c =>
        if week_start ≤ doc.created_time ∧ doc.created_time ≤ week_end then
          some
            { id := doc.id
              title := doc.title
              content := doc.content
              type := c.document_type
              sub_category := c.sub_category
              confidence := c.confidence_score
              created_time := doc.created_time }
        else none
      | none => none))

/-- dict.get(k, 0) + 1 accumulation used by
calculate_weekly_statistics: bump the count of key k, appending it with
count 1 on first sight (Python dicts keep insertion order). -/
def bumpCount [BEq κ] (m : List (κ × Nat)) (k : κ) : List (κ × Nat) :=
  match m.find? (fun kv => kv.fst == k) with
  | some _ => replaceFirst (fun kv => kv.fst == k) (fun kv => (kv.fst, kv.snd + 1)) m
  | none => m ++ [(k, 1)]

/-- The statistics dict returned by
WeeklySummarizer.calculate_weekly_statistics (summarizer.py lines
106-126). -/
structure WeeklyStats where
  total_documents : Nat
  documents_by_type : List (DocumentType × Nat)
  documents_by_subcategory : List (SubCategory × Nat)
deriving DecidableEq, Repr

/-- WeeklySummarizer.calculate_weekly_statistics. -/
def calculate_weekly_statistics (documents : List DocDetail) : WeeklyStats :=
  { total_documents := documents.length
    documents_by_type := documents.foldl (fun m d => bumpCount m d.type) []
    documents_by_subcategory := documents.foldl (fun m d => bumpCount m d.sub_category) [] }

/-- The two required keys of the JSON object generate_summary parses out
of the narrative oracle response (summarizer.py lines 202-212). -/
structure RawSummary where
  summary_text : String
  key_insights : List String
deriving DecidableEq, Repr

/-- The pydantic WeeklySummary model (models.py); the count dicts are
insertion-ordered key/count lists. -/
structure WeeklySummary where
  week_start : Nat
  week_end : Nat
  total_documents : Nat
  documents_by_type : List (DocumentType × Nat)
  documents_by_subcategory : List (SubCategory × Nat)
  summary_text : String
  key_insights : List String
  generated_at : Nat
deriving DecidableEq, Repr

/-- WeeklySummarizer.generate_summary (summarizer.py lines 128-230): if
no document in the store has a classification and a creation time inside
the week, return the canned zero-activity summary without consulting the
oracle; otherwise compute the statistics and ask the narrative oracle
(which receives the statistics and the weekly documents that the prompt
serializes), raising on an oracle failure or malformed response.
generated_at takes the pydantic default utcnow, passed as now. -/
def generate_summary (oracle : WeeklyStats → List DocDetail → Except String RawSummary) (db : Database) (week_start week_end now : Nat) : Except String WeeklySummary :=
  let documents := get_weekly_documents db week_start week_end
  if documents.isEmpty then
    Except.ok
      { week_start := week_start
        week_end := week_end
        total_documents := 0
        documents_by_type := []
        documents_by_subcategory := []
        summary_text := "No documents were processed during this week, making it difficult to analyze mindset patterns."
        key_insights := ["No document activity to analyze for mindset insights this week."]
        generated_at := now }
  else
    let stats := calculate_weekly_statistics documents
    match oracle stats documents with
    | Except.error e => Except.error e
    | Except.ok data =>
      Except.ok
        { week_start := week_start
          week_end := week_end
          total_documents := stats.total_documents
          documents_by_type := stats.documents_by_type
          documents_by_subcategory := stats.documents_by_subcategory
          summary_text := data.summary_text
          key_insights := data.key_insights
          generated_at := now }

/-- Microseconds in one day. -/
def microsecondsPerDay : Nat := 86400000000

/-- WeeklySummarizer.get_week_boundaries (summarizer.py lines 277-289):
date - timedelta(days=date.weekday()) with the time replaced by
00:00:00.000000 is midnight of the Monday of the reference day (day 0 of the
epoch is a Monday, so weekday = day mod 7), and the week end is
week_start + timedelta(days=6, hours=23, minutes=59, seconds=59) =
week_start + 604799 seconds. -/
def get_week_boundaries (date : Nat) : Nat × Nat :=
  let day := date / microsecondsPerDay
  let week_start := (day - day % 7) * microsecondsPerDay
  (week_start, week_start + 604799000000)

/-- The effect on the store of a fully committed
save_documents_to_db batch: every upsert applied in order. -/
def applyDocuments (db : Database) (docs : List NotionDocument) (now : Nat) : Database :=
  docs.foldl (fun s d => processDocument s d now) db

/-- The effect on the store of a fully committed
save_classifications_to_db batch: every upsert applied in order. -/
def applyClassifications (db : Database) (cs : List DocumentClassification) (now : Nat) : Database :=
  cs.foldl (fun s c => processClassification s c now) db

/-- A document batch element is fully persisted in a store state: the
stored document row carries the title of the batch element, content,
last_edited_time and serialized properties, and the processing record is
EXTRACTED as of now. This is the state save_documents_to_db leaves a
batch element in, and re-running the save on such a state is a no-op. -/
def DocSaved (d : NotionDocument) (now : Nat) (s : Database) : Prop :=
  (∃ r, s.documents.find? (fun x => x.id == d.id) = some r ∧
    r.title = d.title ∧ r.content = d.content ∧ r.last_edited_time = d.last_edited_time ∧
    r.properties = propsToJson d.properties ∧ r.updated_at = now)
  ∧ (∃ p, s.records.find? (fun x => x.document_id == d.id) = some p ∧
    p.status = ProcessingStatus.extracted ∧ p.extracted_at = some now ∧ p.updated_at = now)

/-- Concrete document row fixture for instantiating theorems. -/
def sampleDoc (ident : String) : NotionDocumentDB :=
  { id := ident, title := "t", content := "c", url := "u", created_time := 0,
    last_edited_time := 0, parent_database_id := "p", properties := "", created_at := 0,
    updated_at := 0 }

/-- Concrete extracted-document fixture for instantiating theorems. -/
def sampleDocument (ident : String) : NotionDocument :=
  { id := ident, title := "t", content := "c", url := "u", created_time := 0,
    last_edited_time := 0, parent_database_id := "p", properties := [] }

/-- Concrete parsed-oracle-response fixture for instantiating theorems. -/
def sampleRaw : RawClassification :=
  { document_type := "project", sub_category := "planning", confidence_score := 1,
    classification_reason := "r" }

/-- Concrete classification fixture for instantiating theorems. -/
def sampleClassification (ident : String) : DocumentClassification :=
  { document_id := ident, document_type := DocumentType.project,
    sub_category := SubCategory.planning, confidence_score := 1,
    classification_reason := "r", classified_at := 0 }

/-- Concrete processing record carrying an error message, for
instantiating theorems. -/
def sampleErrorRecord : ProcessingRecordDB :=
  { document_id := "a", status := ProcessingStatus.extracted, extracted_at := some 0,
    classified_at := none, error_message := some "x", created_at := 0, updated_at := 0 }

/-- Concrete processing record in CLASSIFIED status, for instantiating
theorems. -/
def sampleClassifiedRecord : ProcessingRecordDB :=
  { document_id := "z", status := ProcessingStatus.classified, extracted_at := none,
    classified_at := some 0, error_message := none, created_at := 0, updated_at := 0 }

/-! Helper lemmas about replaceFirst and find?. -/

theorem length_replaceFirst (p : α → Bool) (f : α → α) (l : List α) :
    (replaceFirst p f l).length = l.length := by
  induction l with
  | nil => rfl
  | cons x xs ih =>
    simp only [replaceFirst]
    by_cases hx : p x = true
    · simp [hx]
    · simp [hx, ih]

theorem mem_replaceFirst {x : α} {p : α → Bool} {f : α → α} {l : List α}
    (h : x ∈ replaceFirst p f l) : x ∈ l ∨ ∃ y, y ∈ l ∧ p y = true ∧ x = f y := by
  induction l with
  | nil => simp [replaceFirst] at h
  | cons a as ih =>
    simp only [replaceFirst] at h
    by_cases ha : p a = true
    · rw [if_pos ha] at h
      rcases List.mem_cons.mp h with h1 | h2
      · exact Or.inr ⟨a, List.mem_cons_self a as, ha, h1⟩
      · exact Or.inl (List.mem_cons_of_mem a h2)
    · rw [if_neg ha] at h
      rcases List.mem_cons.mp h with h1 | h2
      · exact Or.inl (h1 ▸ List.mem_cons_self a as)
      · rcases ih h2 with h3 | ⟨y, hy, hpy, hxy⟩
        · exact Or.inl (List.mem_cons_of_mem a h3)
        · exact Or.inr ⟨y, List.mem_cons_of_mem a hy, hpy, hxy⟩

theorem mem_replaceFirst_of_neg {x : α} {p : α → Bool} {f : α → α} {l : List α}
    (h : x ∈ l) (hx : p x = false) : x ∈ replaceFirst p f l := by
  induction l with
  | nil => simp at h
  | cons a as ih =>
    simp only [replaceFirst]
    rcases List.mem_cons.mp h with h1 | h2
    · subst h1
      rw [if_neg (by simp [hx])]
      exact List.mem_cons_self x _
    · by_cases ha : p a = true
      · rw [if_pos ha]
        exact List.mem_cons_of_mem _ h2
      · rw [if_neg ha]
        exact List.mem_cons_of_mem a (ih h2)

theorem find?_replaceFirst_same {p : α → Bool} {f : α → α} (l : List α)
    (hf : ∀ x, p x = true → p (f x) = true) :
    (replaceFirst p f l).find? p = (l.find? p).map f := by
  induction l with
  | nil => rfl
  | cons a as ih =>
    simp only [replaceFirst]
    by_cases ha : p a = true
    · rw [if_pos ha, List.find?_cons_of_pos _ (hf a ha), List.find?_cons_of_pos _ ha]
      rfl
    · have ha2 : p a = false := by simpa using ha
      rw [if_neg ha, List.find?_cons_of_neg _ (by simp [ha2]),
        List.find?_cons_of_neg _ (by simp [ha2])]
      exact ih

theorem find?_replaceFirst_other {p q : α → Bool} {f : α → α} (l : List α)
    (h : ∀ x, q x = true → p x = false) (hf : ∀ x, q x = true → p (f x) = false) :
    (replaceFirst q f l).find? p = l.find? p := by
  induction l with
  | nil => rfl
  | cons a as ih =>
    simp only [replaceFirst]
    by_cases ha : q a = true
    · rw [if_pos ha, List.find?_cons_of_neg _ (by simp [hf a ha]),
        List.find?_cons_of_neg _ (by simp [h a ha])]
    · rw [if_neg ha]
      by_cases hpa : p a = true
      · rw [List.find?_cons_of_pos _ hpa, List.find?_cons_of_pos _ hpa]
      · have hpa2 : p a = false := by simpa using hpa
        rw [List.find?_cons_of_neg _ (by simp [hpa2]),
          List.find?_cons_of_neg _ (by simp [hpa2])]
        exact ih

theorem find?_append_singleton_of_neg {p : α → Bool} {a : α} (l : List α)
    (ha : p a = false) : (l ++ [a]).find? p = l.find? p := by
  induction l with
  | nil => simp [List.find?, ha]
  | cons x xs ih =>
    by_cases hx : p x = true
    · rw [List.cons_append, List.find?_cons_of_pos _ hx, List.find?_cons_of_pos _ hx]
    · have hx2 : p x = false := by simpa using hx
      rw [List.cons_append, List.find?_cons_of_neg _ (by simp [hx2]),
        List.find?_cons_of_neg _ (by simp [hx2])]
      exact ih

theorem find?_append_singleton_of_none {p : α → Bool} {a : α} {l : List α}
    (hl : l.find? p = none) (ha : p a = true) : (l ++ [a]).find? p = some a := by
  induction l with
  | nil => simp [List.find?, ha]
  | cons x xs ih =>
    rw [List.find?_cons] at hl
    rcases hx : p x with _ | _
    · rw [hx] at hl
      rw [List.cons_append, List.find?_cons_of_neg _ (by simp [hx])]
      exact ih hl
    · rw [hx] at hl
      exact absurd hl (by simp)

theorem replaceFirst_eq_of_find? {p : α → Bool} {f : α → α} {l : List α} {r : α}
    (hfind : l.find? p = some r) (hf : f r = r) : replaceFirst p f l = l := by
  induction l with
  | nil => simp at hfind
  | cons a as ih =>
    simp only [replaceFirst]
    by_cases ha : p a = true
    · rw [List.find?_cons_of_pos _ ha, Option.some.injEq] at hfind
      rw [if_pos ha, hfind, hf]
    · have ha2 : p a = false := by simpa using ha
      rw [List.find?_cons_of_neg _ (by simp [ha2])] at hfind
      rw [if_neg ha, ih hfind]

/-! Lemmas about the two per-item upsert steps. -/

theorem records_processDocument_self (s : Database) (d : NotionDocument) (now : Nat) :
    (processDocument s d now).records.find? (fun r => r.document_id == d.id) =
      some (match s.records.find? (fun r => r.document_id == d.id) with
            | some r => extractionRecordUpdate now r
            | none => newExtractionRecord d.id now) := by
  simp only [processDocument]
  cases hfind : s.records.find? (fun r => r.document_id == d.id) with
  | some r =>
    rw [find?_replaceFirst_same _ (fun x hx => by simpa [extractionRecordUpdate] using hx), hfind]
    rfl
  | none =>
    exact find?_append_singleton_of_none hfind (by simp [newExtractionRecord])

theorem records_processDocument_other (s : Database) (d : NotionDocument) (now : Nat)
    {x : String} (hx : d.id ≠ x) :
    (processDocument s d now).records.find? (fun r => r.document_id == x) =
      s.records.find? (fun r => r.document_id == x) := by
  simp only [processDocument]
  cases hfind : s.records.find? (fun r => r.document_id == d.id) with
  | some r =>
    refine find?_replaceFirst_other _ (fun y hy => ?_) (fun y hy => ?_)
    · have : y.document_id = d.id := by simpa using hy
      simp [this, hx]
    · have : y.document_id = d.id := by simpa using hy
      simp [extractionRecordUpdate, this, hx]
  | none =>
    exact find?_append_singleton_of_neg _ (by simp [newExtractionRecord, hx])

theorem documents_processDocument_self (s : Database) (d : NotionDocument) (now : Nat) :
    (processDocument s d now).documents.find? (fun r => r.id == d.id) =
      some (match s.documents.find? (fun r => r.id == d.id) with
            | some r => updatedDocumentRow d now r
            | none => newDocumentRow d now) := by
  simp only [processDocument]
  cases hfind : s.documents.find? (fun r => r.id == d.id) with
  | some r =>
    rw [find?_replaceFirst_same _ (fun x hx => by simpa [updatedDocumentRow] using hx), hfind]
    rfl
  | none =>
    exact find?_append_singleton_of_none hfind (by simp [newDocumentRow])

theorem documents_processDocument_other (s : Database) (d : NotionDocument) (now : Nat)
    {x : String} (hx : d.id ≠ x) :
    (processDocument s d now).documents.find? (fun r => r.id == x) =
      s.documents.find? (fun r => r.id == x) := by
  simp only [processDocument]
  cases hfind : s.documents.find? (fun r => r.id == d.id) with
  | some r =>
    refine find?_replaceFirst_other _ (fun y hy => ?_) (fun y hy => ?_)
    · have : y.id = d.id := by simpa using hy
      simp [this, hx]
    · have : y.id = d.id := by simpa using hy
      simp [updatedDocumentRow, this, hx]
  | none =>
    exact find?_append_singleton_of_neg _ (by simp [newDocumentRow, hx])

theorem records_processClassification_self (s : Database) (c : DocumentClassification) (now : Nat) :
    (processClassification s c now).records.find? (fun r => r.document_id == c.document_id) =
      some (match s.records.find? (fun r => r.document_id == c.document_id) with
            | some r => classificationRecordUpdate now r
            | none => newClassificationRecord c.document_id now) := by
  simp only [processClassification]
  cases hfind : s.records.find? (fun r => r.document_id == c.document_id) with
  | some r =>
    rw [find?_replaceFirst_same _ (fun x hx => by simpa [classificationRecordUpdate] using hx), hfind]
    rfl
  | none =>
    exact find?_append_singleton_of_none hfind (by simp [newClassificationRecord])

theorem records_processClassification_other (s : Database) (c : DocumentClassification) (now : Nat)
    {x : String} (hx : c.document_id ≠ x) :
    (processClassification s c now).records.find? (fun r => r.document_id == x) =
      s.records.find? (fun r => r.document_id == x) := by
  simp only [processClassification]
  cases hfind : s.records.find? (fun r => r.document_id == c.document_id) with
  | some r =>
    refine find?_replaceFirst_other _ (fun y hy => ?_) (fun y hy => ?_)
    · have : y.document_id = c.document_id := by simpa using hy
      simp [this, hx]
    · have : y.document_id = c.document_id := by simpa using hy
      simp [classificationRecordUpdate, this, hx]
  | none =>
    exact find?_append_singleton_of_neg _ (by simp [newClassificationRecord, hx])

theorem mem_records_processClassification {r : ProcessingRecordDB} {s : Database}
    {c : DocumentClassification} {now : Nat}
    (h : r ∈ (processClassification s c now).records) :
    r ∈ s.records ∨ r.status = ProcessingStatus.classified := by
  simp only [processClassification] at h
  cases hfind : s.records.find? (fun x => x.document_id == c.document_id) with
  | some y =>
    rw [hfind] at h
    rcases mem_replaceFirst h with h1 | ⟨z, _, _, hz⟩
    · exact Or.inl h1
    · exact Or.inr (by simp [hz, classificationRecordUpdate])
  | none =>
    rw [hfind] at h
    rcases List.mem_append.mp h with h1 | h2
    · exact Or.inl h1
    · have : r = newClassificationRecord c.document_id now := by simpa using h2
      exact Or.inr (by simp [this, newClassificationRecord])

/-! Characterization of the two batch save operations. -/

theorem saveDocumentsLoop_none (docs : List NotionDocument) (s : Database) (idx : Nat)
    (now : Nat) :
    saveDocumentsLoop s docs idx now none =
      Except.ok (docs.foldl (fun a d => processDocument a d now) s) := by
  induction docs generalizing s idx with
  | nil => rfl
  | cons d rest ih =>
    simp only [saveDocumentsLoop, reduceCtorEq, if_false, List.foldl_cons]
    exact ih (processDocument s d now) (idx + 1)

theorem saveDocumentsLoop_some (docs : List NotionDocument) (s : Database) (idx j : Nat)
    (now : Nat) :
    saveDocumentsLoop s docs idx now (some j) =
      if idx ≤ j ∧ j < idx + docs.length then Except.error "database error"
      else Except.ok (docs.foldl (fun a d => processDocument a d now) s) := by
  induction docs generalizing s idx with
  | nil =>
    simp only [saveDocumentsLoop, List.foldl_nil, List.length_nil]
    rw [if_neg (by omega)]
  | cons d rest ih =>
    simp only [saveDocumentsLoop, List.foldl_cons, List.length_cons]
    by_cases hj : j = idx
    · rw [if_pos (by simp [hj]), if_pos (by omega)]
    · rw [if_neg (by simp [hj]), ih (processDocument s d now) (idx + 1)]
      by_cases hc : idx + 1 ≤ j ∧ j < idx + 1 + rest.length
      · rw [if_pos hc, if_pos (by omega)]
      · rw [if_neg hc, if_neg (by omega)]

theorem saveClassificationsLoop_none (cs : List DocumentClassification) (s : Database) (idx : Nat)
    (now : Nat) :
    saveClassificationsLoop s cs idx now none =
      Except.ok (cs.foldl (fun a c => processClassification a c now) s) := by
  induction cs generalizing s idx with
  | nil => rfl
  | cons c rest ih =>
    simp only [saveClassificationsLoop, reduceCtorEq, if_false, List.foldl_cons]
    exact ih (processClassification s c now) (idx + 1)

theorem saveClassificationsLoop_some (cs : List DocumentClassification) (s : Database) (idx j : Nat)
    (now : Nat) :
    saveClassificationsLoop s cs idx now (some j) =
      if idx ≤ j ∧ j < idx + cs.length then Except.error "database error"
      else Except.ok (cs.foldl (fun a c => processClassification a c now) s) := by
  induction cs generalizing s idx with
  | nil =>
    simp only [saveClassificationsLoop, List.foldl_nil, List.length_nil]
    rw [if_neg (by omega)]
  | cons c rest ih =>
    simp only [saveClassificationsLoop, List.foldl_cons, List.length_cons]
    by_cases hj : j = idx
    · rw [if_pos (by simp [hj]), if_pos (by omega)]
    · rw [if_neg (by simp [hj]), ih (processClassification s c now) (idx + 1)]
      by_cases hc : idx + 1 ≤ j ∧ j < idx + 1 + rest.length
      · rw [if_pos hc, if_pos (by omega)]
      · rw [if_neg hc, if_neg (by omega)]

theorem save_documents_to_db_eq (db : Database) (docs : List NotionDocument)
    (now : Nat) (failAt : Option Nat) :
    save_documents_to_db db docs now failAt =
      match failAt with
      | none => (applyDocuments db docs now, none)
      | some j =>
        if j ≤ docs.length then (db, some "database error")
        else (applyDocuments db docs now, none) := by
  cases failAt with
  | none =>
    simp only [save_documents_to_db, saveDocumentsLoop_none, applyDocuments, reduceCtorEq, if_false]
  | some j =>
    by_cases h1 : j < docs.length
    · simp [save_documents_to_db, saveDocumentsLoop_some, applyDocuments, h1,
        Nat.le_of_lt h1]
    · by_cases h2 : j = docs.length
      · subst h2
        simp [save_documents_to_db, saveDocumentsLoop_some, applyDocuments]
      · simp [save_documents_to_db, saveDocumentsLoop_some, applyDocuments, h1, h2,
          show ¬j ≤ docs.length from by omega]

theorem save_classifications_to_db_eq (db : Database) (cs : List DocumentClassification)
    (now : Nat) (failAt : Option Nat) :
    save_classifications_to_db db cs now failAt =
      match failAt with
      | none => (applyClassifications db cs now, none)
      | some j =>
        if j ≤ cs.length then (db, some "database error")
        else (applyClassifications db cs now, none) := by
  cases failAt with
  | none =>
    simp only [save_classifications_to_db, saveClassificationsLoop_none, applyClassifications,
      reduceCtorEq, if_false]
  | some j =>
    by_cases h1 : j < cs.length
    · simp [save_classifications_to_db, saveClassificationsLoop_some, applyClassifications, h1,
        Nat.le_of_lt h1]
    · by_cases h2 : j = cs.length
      · subst h2
        simp [save_classifications_to_db, saveClassificationsLoop_some, applyClassifications]
      · simp [save_classifications_to_db, saveClassificationsLoop_some, applyClassifications, h1,
          h2, show ¬j ≤ cs.length from by omega]

/-! The DocSaved invariant: established by processDocument for the
processed document, stable under upserts of other documents, and making
re-processing of the same document a no-op. -/

theorem applyDocuments_cons (db : Database) (e : NotionDocument) (rest : List NotionDocument)
    (now : Nat) :
    applyDocuments db (e :: rest) now = applyDocuments (processDocument db e now) rest now := rfl

theorem applyClassifications_cons (db : Database) (c : DocumentClassification)
    (rest : List DocumentClassification) (now : Nat) :
    applyClassifications db (c :: rest) now =
      applyClassifications (processClassification db c now) rest now := rfl

theorem status_find?_processDocument (s : Database) (e : NotionDocument) (now : Nat)
    (x : String) :
    ((processDocument s e now).records.find? (fun r => r.document_id == x)).map (fun r => r.status) =
      if e.id = x then some ProcessingStatus.extracted
      else (s.records.find? (fun r => r.document_id == x)).map (fun r => r.status) := by
  by_cases hx : e.id = x
  · subst hx
    rw [records_processDocument_self, if_pos rfl]
    cases hfind : s.records.find? (fun r => r.document_id == e.id) with
    | some r => simp [extractionRecordUpdate]
    | none => simp [newExtractionRecord]
  · rw [records_processDocument_other s e now hx, if_neg hx]

theorem docSaved_processDocument (s : Database) (d : NotionDocument) (now : Nat) :
    DocSaved d now (processDocument s d now) := by
  constructor
  · rw [documents_processDocument_self]
    cases hfind : s.documents.find? (fun x => x.id == d.id) with
    | some r => exact ⟨updatedDocumentRow d now r, rfl, rfl, rfl, rfl, rfl, rfl⟩
    | none => exact ⟨newDocumentRow d now, rfl, rfl, rfl, rfl, rfl, rfl⟩
  · rw [records_processDocument_self]
    cases hfind : s.records.find? (fun x => x.document_id == d.id) with
    | some p => exact ⟨extractionRecordUpdate now p, rfl, rfl, rfl, rfl⟩
    | none => exact ⟨newExtractionRecord d.id now, rfl, rfl, rfl, rfl⟩

theorem docSaved_processDocument_other {s : Database} {d e : NotionDocument} {now : Nat}
    (hne : e.id ≠ d.id) (h : DocSaved d now s) : DocSaved d now (processDocument s e now) := by
  obtain ⟨⟨r, hr, hr1, hr2, hr3, hr4, hr5⟩, ⟨p, hp, hp1, hp2, hp3⟩⟩ := h
  refine ⟨⟨r, ?_, hr1, hr2, hr3, hr4, hr5⟩, ⟨p, ?_, hp1, hp2, hp3⟩⟩
  · rw [documents_processDocument_other s e now hne]
    exact hr
  · rw [records_processDocument_other s e now hne]
    exact hp

theorem processDocument_of_docSaved {s : Database} {d : NotionDocument} {now : Nat}
    (h : DocSaved d now s) : processDocument s d now = s := by
  obtain ⟨⟨r, hr, hr1, hr2, hr3, hr4, hr5⟩, ⟨p, hp, hp1, hp2, hp3⟩⟩ := h
  have hru : updatedDocumentRow d now r = r := by
    unfold updatedDocumentRow
    rw [← hr1, ← hr2, ← hr3, ← hr4, ← hr5]
  have hpu : extractionRecordUpdate now p = p := by
    unfold extractionRecordUpdate
    rw [← hp1, ← hp2, ← hp3]
  simp only [processDocument, hr, hp]
  rw [replaceFirst_eq_of_find? hr hru, replaceFirst_eq_of_find? hp hpu]

theorem applyDocuments_docSaved_preserved {docs : List NotionDocument} {s : Database}
    {d : NotionDocument} {now : Nat}
    (hne : ∀ e ∈ docs, e.id ≠ d.id) (h : DocSaved d now s) :
    DocSaved d now (applyDocuments s docs now) := by
  induction docs generalizing s with
  | nil => exact h
  | cons e rest ih =>
    rw [applyDocuments_cons]
    exact ih (fun x hx => hne x (List.mem_cons_of_mem e hx))
      (docSaved_processDocument_other (hne e (List.mem_cons_self e rest)) h)

theorem applyDocuments_of_saved {docs : List NotionDocument} {s : Database} {now : Nat}
    (h : ∀ d ∈ docs, DocSaved d now s) : applyDocuments s docs now = s := by
  induction docs with
  | nil => rfl
  | cons e rest ih =>
    rw [applyDocuments_cons, processDocument_of_docSaved (h e (List.mem_cons_self e rest))]
    exact ih (fun x hx => h x (List.mem_cons_of_mem e hx))

theorem applyDocuments_all_saved {docs : List NotionDocument} {db : Database} {now : Nat}
    (hnodup : (docs.map (fun d => d.id)).Nodup) :
    ∀ d ∈ docs, DocSaved d now (applyDocuments db docs now) := by
  induction docs generalizing db with
  | nil => intro d hd; simp at hd
  | cons e rest ih =>
    rw [List.map_cons, List.nodup_cons] at hnodup
    obtain ⟨hnotin, hrest⟩ := hnodup
    intro d hd
    rw [applyDocuments_cons]
    rcases List.mem_cons.mp hd with h1 | h2
    · subst h1
      refine applyDocuments_docSaved_preserved (fun x hx hxe => ?_)
        (docSaved_processDocument db d now)
      exact hnotin (hxe ▸ List.mem_map_of_mem (fun y => y.id) hx)
    · exact ih hrest d h2

theorem applyDocuments_idempotent {docs : List NotionDocument} {db : Database} {now : Nat}
    (hnodup : (docs.map (fun d => d.id)).Nodup) :
    applyDocuments (applyDocuments db docs now) docs now = applyDocuments db docs now :=
  applyDocuments_of_saved (applyDocuments_all_saved hnodup)

theorem find?_records_applyDocuments_other {docs : List NotionDocument} {s : Database}
    {now : Nat} {x : String} (hx : ∀ d ∈ docs, d.id ≠ x) :
    (applyDocuments s docs now).records.find? (fun r => r.document_id == x) =
      s.records.find? (fun r => r.document_id == x) := by
  induction docs generalizing s with
  | nil => rfl
  | cons e rest ih =>
    rw [applyDocuments_cons, ih (fun d hd => hx d (List.mem_cons_of_mem e hd)),
      records_processDocument_other s e now (hx e (List.mem_cons_self e rest))]

theorem status_applyDocuments_preserved {docs : List NotionDocument} {s : Database}
    {now : Nat} {x : String}
    (h : (s.records.find? (fun r => r.document_id == x)).map (fun r => r.status) =
      some ProcessingStatus.extracted) :
    ((applyDocuments s docs now).records.find? (fun r => r.document_id == x)).map
        (fun r => r.status) = some ProcessingStatus.extracted := by
  induction docs generalizing s with
  | nil => exact h
  | cons e rest ih =>
    rw [applyDocuments_cons]
    refine ih ?_
    rw [status_find?_processDocument]
    by_cases hex : e.id = x
    · rw [if_pos hex]
    · rw [if_neg hex]
      exact h

theorem status_applyDocuments_extracted {docs : List NotionDocument} {db : Database}
    {now : Nat} {d : NotionDocument} (hd : d ∈ docs) :
    ((applyDocuments db docs now).records.find? (fun r => r.document_id == d.id)).map
        (fun r => r.status) = some ProcessingStatus.extracted := by
  induction docs generalizing db with
  | nil => simp at hd
  | cons e rest ih =>
    rw [applyDocuments_cons]
    rcases List.mem_cons.mp hd with h1 | h2
    · subst h1
      apply status_applyDocuments_preserved
      rw [status_find?_processDocument, if_pos rfl]
    · exact ih h2

theorem mem_records_applyClassifications {cs : List DocumentClassification} {db : Database}
    {now : Nat} {r : ProcessingRecordDB}
    (h : r ∈ (applyClassifications db cs now).records) :
    r ∈ db.records ∨ r.status = ProcessingStatus.classified := by
  induction cs generalizing db with
  | nil => exact Or.inl h
  | cons c rest ih =>
    rw [applyClassifications_cons] at h
    rcases ih h with h1 | h2
    · exact mem_records_processClassification h1
    · exact Or.inr h2

/-! Lemmas about classify_document and classify_documents_batch. -/

theorem classify_document_ok_id {oracle : NotionDocumentDB → Except String RawClassification}
    {now : Nat} {d : NotionDocumentDB} {c : DocumentClassification}
    (h : classify_document oracle now d = Except.ok c) : c.document_id = d.id := by
  unfold classify_document at h
  cases ho : oracle d with
  | error e =>
    rw [ho] at h
    exact absurd h (by simp)
  | ok data =>
    rw [ho] at h
    dsimp only at h
    cases hdt : DocumentType.fromString? data.document_type with
    | none =>
      rw [hdt] at h
      cases hsc : SubCategory.fromString? data.sub_category <;> rw [hsc] at h <;> simp at h
    | some dt =>
      rw [hdt] at h
      cases hsc : SubCategory.fromString? data.sub_category with
      | none =>
        rw [hsc] at h
        simp at h
      | some sc =>
        rw [hsc] at h
        dsimp only at h
        by_cases hc : 0 ≤ data.confidence_score ∧ data.confidence_score ≤ 1
        · rw [if_pos hc] at h
          rw [Except.ok.injEq] at h
          rw [← h]
        · rw [if_neg hc] at h
          exact absurd h (by simp)

theorem classify_documents_batch_filterMap
    (oracle : NotionDocumentDB → Except String RawClassification) (now : Nat)
    (documents : List NotionDocumentDB) :
    classify_documents_batch oracle now documents =
      documents.filterMap (fun d => (classify_document oracle now d).toOption) := by
  induction documents with
  | nil => rfl
  | cons d rest ih =>
    simp only [classify_documents_batch, List.filterMap_cons]
    cases h : classify_document oracle now d with
    | ok c => simp [Except.toOption, ih]
    | error e => simp [Except.toOption, ih]

/-! Claim theorems. -/

/-- C3: batch persistence is atomic per stage. For both
save_documents_to_db and save_classifications_to_db, if an exception is
raised at any point of the batch (while processing element j of the
batch, or at commit when j equals the batch length), the store is left
exactly as it was and the error is re-raised to the caller; on success
all upserts of the batch are committed together. -/
theorem save_batches_atomic (db : Database) (docs : List NotionDocument)
    (cs : List DocumentClassification) (now : Nat) (failAtD failAtC : Option Nat) :
    (save_documents_to_db db docs now failAtD =
      match failAtD with
      | none => (applyDocuments db docs now, none)
      | some j =>
        if j ≤ docs.length then (db, some "database error")
        else (applyDocuments db docs now, none))
    ∧ (save_classifications_to_db db cs now failAtC =
      match failAtC with
      | none => (applyClassifications db cs now, none)
      | some j =>
        if j ≤ cs.length then (db, some "database error")
        else (applyClassifications db cs now, none)) :=
  ⟨save_documents_to_db_eq db docs now failAtD, save_classifications_to_db_eq db cs now failAtC⟩

/-- C5: classify_documents_batch isolates per-document failures: it is a
total function returning exactly the successful classifications (the
filterMap of the per-document results), and on a batch of 5 documents
whose oracle response is malformed exactly for document 3 it returns
exactly the 4 successful classifications. -/
theorem classify_batch_partial_failure_isolation :
    (∀ (oracle : NotionDocumentDB → Except String RawClassification) (now : Nat)
        (documents : List NotionDocumentDB),
      classify_documents_batch oracle now documents =
        documents.filterMap (fun d => (classify_document oracle now d).toOption))
    ∧ classify_documents_batch
        (fun d => if d.id == "3" then Except.error "Invalid classification response"
                  else Except.ok sampleRaw)
        0 [sampleDoc "1", sampleDoc "2", sampleDoc "3", sampleDoc "4", sampleDoc "5"] =
      [sampleClassification "1", sampleClassification "2", sampleClassification "4",
        sampleClassification "5"] := by
  constructor
  · exact classify_documents_batch_filterMap
  · decide

/-- C9: classify_documents_batch preserves input order: the returned
list is the in-order subsequence of successful classify_document
results, with each returned classification carrying the id of the input
document it came from. -/
theorem classify_batch_order_preserved
    (oracle : NotionDocumentDB → Except String RawClassification) (now : Nat)
    (documents : List NotionDocumentDB) :
    classify_documents_batch oracle now documents =
      (documents.map (classify_document oracle now)).filterMap Except.toOption
    ∧ (classify_documents_batch oracle now documents).map (fun c => c.document_id) =
      (documents.filter (fun d => (classify_document oracle now d).toOption.isSome)).map
        (fun d => d.id) := by
  constructor
  · rw [classify_documents_batch_filterMap, List.filterMap_map]
    rfl
  · induction documents with
    | nil => rfl
    | cons d rest ih =>
      simp only [classify_documents_batch, List.filter_cons]
      cases h : classify_document oracle now d with
      | ok c => simp [h, ih, classify_document_ok_id h, Except.toOption]
      | error e => simp [h, ih, Except.toOption]

/-- C6: for a week window with no qualifying documents,
generate_summary returns the canned zero-activity summary (zero total,
empty count maps, fixed text, one fixed insight) and the result does not
depend on the oracle at all. -/
theorem generate_summary_empty_week (db : Database) (week_start week_end now : Nat)
    (oracle : WeeklyStats → List DocDetail → Except String RawSummary)
    (h : get_weekly_documents db week_start week_end = []) :
    generate_summary oracle db week_start week_end now =
      Except.ok
        { week_start := week_start
          week_end := week_end
          total_documents := 0
          documents_by_type := []
          documents_by_subcategory := []
          summary_text := "No documents were processed during this week, making it difficult to analyze mindset patterns."
          key_insights := ["No document activity to analyze for mindset insights this week."]
          generated_at := now } := by
  simp [generate_summary, h]

/-- C6 witness: an empty store over an arbitrary week, with an oracle
that would fail if it were consulted. -/
theorem generate_summary_empty_week_witness :
    generate_summary (fun _ _ => Except.error "oracle invoked") ⟨[], [], []⟩ 0 604799000000 7 =
      Except.ok
        { week_start := 0
          week_end := 604799000000
          total_documents := 0
          documents_by_type := []
          documents_by_subcategory := []
          summary_text := "No documents were processed during this week, making it difficult to analyze mindset patterns."
          key_insights := ["No document activity to analyze for mindset insights this week."]
          generated_at := 7 } :=
  generate_summary_empty_week ⟨[], [], []⟩ 0 604799000000 7 (fun _ _ => Except.error "oracle invoked") rfl

/-- C7: get_week_boundaries returns a week_start that is midnight
(time-of-day zero) of a Monday (weekday zero), at or before the
reference date and less than 7 days before it (the most recent Monday),
and a week_end equal to week_start plus 6 days, 23 hours, 59 minutes,
59 seconds (the following Sunday at 23:59:59); hence the Monday-to-Sunday
window contains the day of the reference date. -/
theorem get_week_boundaries_spec (date : Nat) :
    (get_week_boundaries date).fst ≤ (get_week_boundaries date).snd
    ∧ (get_week_boundaries date).fst % microsecondsPerDay = 0
    ∧ ((get_week_boundaries date).fst / microsecondsPerDay) % 7 = 0
    ∧ (get_week_boundaries date).snd = (get_week_boundaries date).fst + 604799000000
    ∧ (get_week_boundaries date).fst ≤ date
    ∧ date < (get_week_boundaries date).fst + 7 * microsecondsPerDay
    ∧ (get_week_boundaries date).fst / microsecondsPerDay ≤ date / microsecondsPerDay
    ∧ date / microsecondsPerDay ≤ (get_week_boundaries date).snd / microsecondsPerDay := by
  unfold get_week_boundaries microsecondsPerDay
  dsimp only
  omega

/-- C10: save_classifications_to_db does not require a pre-existing
processing record: when none exists for the document of the classification,
it creates one directly in status CLASSIFIED with classified_at set to
now and extracted_at still None. -/
theorem save_classifications_creates_record (db : Database) (c : DocumentClassification)
    (now : Nat)
    (h : db.records.find? (fun r => r.document_id == c.document_id) = none) :
    ((save_classifications_to_db db [c] now none).fst).records.find?
        (fun r => r.document_id == c.document_id) =
      some (newClassificationRecord c.document_id now)
    ∧ (newClassificationRecord c.document_id now).status = ProcessingStatus.classified
    ∧ (newClassificationRecord c.document_id now).extracted_at = none
    ∧ (newClassificationRecord c.document_id now).classified_at = some now := by
  refine ⟨?_, rfl, rfl, rfl⟩
  rw [save_classifications_to_db_eq]
  show (applyClassifications db [c] now).records.find? (fun r => r.document_id == c.document_id) = _
  rw [applyClassifications_cons]
  show (processClassification db c now).records.find? (fun r => r.document_id == c.document_id) = _
  rw [records_processClassification_self, h]

/-- C10 witness: an empty store and a concrete classification. -/
theorem save_classifications_creates_record_witness :
    ((save_classifications_to_db ⟨[], [], []⟩ [sampleClassification "d"] 5 none).fst).records.find?
        (fun r => r.document_id == "d") =
      some (newClassificationRecord "d" 5)
    ∧ (newClassificationRecord "d" 5).status = ProcessingStatus.classified
    ∧ (newClassificationRecord "d" 5).extracted_at = none
    ∧ (newClassificationRecord "d" 5).classified_at = some 5 :=
  save_classifications_creates_record ⟨[], [], []⟩ (sampleClassification "d") 5 rfl

/-- C1 counterexample: the claimed CLASSIFIED-to-EXTRACTED monotonicity
fails. Starting from an empty store, saving a classification for
document d puts its record in CLASSIFIED; a subsequent
save_documents_to_db for the same document (a re-extraction) sets the
record back to EXTRACTED. -/
theorem status_regresses_on_reextraction :
    ((save_classifications_to_db ⟨[], [], []⟩ [sampleClassification "d"] 1 none).fst.records.find?
        (fun r => r.document_id == "d")).map (fun r => r.status) =
      some ProcessingStatus.classified
    ∧ ((save_documents_to_db
          (save_classifications_to_db ⟨[], [], []⟩ [sampleClassification "d"] 1 none).fst
          [sampleDocument "d"] 2 none).fst.records.find?
        (fun r => r.document_id == "d")).map (fun r => r.status) =
      some ProcessingStatus.extracted := by
  decide

/-- C1 amended: the status of a processing record never regresses from
CLASSIFIED to EXTRACTED except through a re-extraction of that very
document: save_classifications_to_db only leaves records untouched or in
CLASSIFIED status, and save_documents_to_db leaves the records of
documents outside its batch unchanged; but save_documents_to_db
unconditionally sets the record of every batch document to EXTRACTED,
including records currently in CLASSIFIED status. -/
theorem classified_status_stable_without_reextraction (db : Database)
    (docs : List NotionDocument) (cs : List DocumentClassification) (now : Nat)
    (failAtD failAtC : Option Nat) (x : String) :
    (∀ r ∈ ((save_classifications_to_db db cs now failAtC).fst).records,
        r ∈ db.records ∨ r.status = ProcessingStatus.classified)
    ∧ ((∀ d ∈ docs, d.id ≠ x) →
        ((save_documents_to_db db docs now failAtD).fst).records.find?
            (fun r => r.document_id == x) =
          db.records.find? (fun r => r.document_id == x))
    ∧ (∀ d ∈ docs,
        (((save_documents_to_db db docs now none).fst).records.find?
            (fun r => r.document_id == d.id)).map (fun r => r.status) =
          some ProcessingStatus.extracted) := by
  refine ⟨?_, ?_, ?_⟩
  · intro r hr
    rw [save_classifications_to_db_eq] at hr
    cases failAtC with
    | none => exact mem_records_applyClassifications hr
    | some j =>
      dsimp only at hr
      by_cases hj : j ≤ cs.length
      · rw [if_pos hj] at hr
        exact Or.inl hr
      · rw [if_neg hj] at hr
        exact mem_records_applyClassifications hr
  · intro hx
    rw [save_documents_to_db_eq]
    cases failAtD with
    | none => exact find?_records_applyDocuments_other hx
    | some j =>
      dsimp only
      by_cases hj : j ≤ docs.length
      · rw [if_pos hj]
      · rw [if_neg hj]
        exact find?_records_applyDocuments_other hx
  · intro d hd
    rw [save_documents_to_db_eq]
    exact status_applyDocuments_extracted hd

/-- C1 amended, witness: with a CLASSIFIED record for z in the store,
extracting an unrelated document d leaves the record of z unchanged while the record of d ends in EXTRACTED, and saving a classification for q only adds a
CLASSIFIED record. -/
theorem classified_status_stable_without_reextraction_witness :
    ((newClassificationRecord "q" 5 ∈
        (⟨[], [], [sampleClassifiedRecord]⟩ : Database).records)
      ∨ (newClassificationRecord "q" 5).status = ProcessingStatus.classified)
    ∧ ((save_documents_to_db ⟨[], [], [sampleClassifiedRecord]⟩
          [sampleDocument "d"] 5 none).fst).records.find?
          (fun r => r.document_id == "z") =
        (⟨[], [], [sampleClassifiedRecord]⟩ : Database).records.find?
          (fun r => r.document_id == "z")
    ∧ (((save_documents_to_db ⟨[], [], [sampleClassifiedRecord]⟩
          [sampleDocument "d"] 5 none).fst).records.find?
          (fun r => r.document_id == "d")).map (fun r => r.status) =
        some ProcessingStatus.extracted :=
  ⟨(classified_status_stable_without_reextraction ⟨[], [], [sampleClassifiedRecord]⟩
      [sampleDocument "d"] [sampleClassification "q"] 5 none none "z").1
      (newClassificationRecord "q" 5) (by decide),
    (classified_status_stable_without_reextraction ⟨[], [], [sampleClassifiedRecord]⟩
      [sampleDocument "d"] [sampleClassification "q"] 5 none none "z").2.1 (by decide),
    (classified_status_stable_without_reextraction ⟨[], [], [sampleClassifiedRecord]⟩
      [sampleDocument "d"] [sampleClassification "q"] 5 none none "z").2.2
      (sampleDocument "d") (by decide)⟩

/-- C2 counterexample: classify_document accepts a classification whose
sub-category does not belong to the set of its primary category. An oracle
response pairing document_type project with sub_category tutorial passes
validation and is returned as a successful classification, although
tutorial is not among the project sub-categories. -/
theorem cross_category_accepted :
    classify_document
        (fun _ => Except.ok
          { document_type := "project"
            sub_category := "tutorial"
            confidence_score := 1
            classification_reason := "r" })
        0 (sampleDoc "d") =
      Except.ok
        { document_id := "d"
          document_type := DocumentType.project
          sub_category := SubCategory.tutorial
          confidence_score := 1
          classification_reason := "r"
          classified_at := 0 }
    ∧ SubCategory.tutorial ∉ allowed_subcategories DocumentType.project := by
  constructor
  · rfl
  · decide

/-- C2 amended: classify_document validates the parsed fields only
independently: the primary category and sub-category must each be a
member of their own enumeration and the confidence score must lie in
[0, 1]; any such combination is accepted, with no check that the
sub-category belongs to the set of the primary category. -/
theorem classify_document_field_validation
    (oracle : NotionDocumentDB → Except String RawClassification) (now : Nat)
    (d : NotionDocumentDB) (raw : RawClassification) (dt : DocumentType) (sc : SubCategory)
    (horacle : oracle d = Except.ok raw)
    (hdt : DocumentType.fromString? raw.document_type = some dt)
    (hsc : SubCategory.fromString? raw.sub_category = some sc)
    (hconf : 0 ≤ raw.confidence_score ∧ raw.confidence_score ≤ 1) :
    classify_document oracle now d =
      Except.ok
        { document_id := d.id
          document_type := dt
          sub_category := sc
          confidence_score := raw.confidence_score
          classification_reason := raw.classification_reason
          classified_at := now } := by
  simp [classify_document, horacle, hdt, hsc, hconf]

/-- C2 amended, witness: a knowledge/bug_report pairing (a sub-category
outside the knowledge set) is accepted. -/
theorem classify_document_field_validation_witness :
    classify_document
        (fun _ => Except.ok
          { document_type := "knowledge"
            sub_category := "bug_report"
            confidence_score := 1
            classification_reason := "r" })
        0 (sampleDoc "w") =
      Except.ok
        { document_id := "w"
          document_type := DocumentType.knowledge
          sub_category := SubCategory.bug_report
          confidence_score := 1
          classification_reason := "r"
          classified_at := 0 } :=
  classify_document_field_validation
    (fun _ => Except.ok
      { document_type := "knowledge"
        sub_category := "bug_report"
        confidence_score := 1
        classification_reason := "r" })
    0 (sampleDoc "w")
    { document_type := "knowledge"
      sub_category := "bug_report"
      confidence_score := 1
      classification_reason := "r" }
    DocumentType.knowledge SubCategory.bug_report rfl rfl rfl (by decide)

/-- C4 counterexample: re-extraction does not replace every stored field.
With a stored document whose url is u0, created_time 0 and parent p0,
saving a re-extracted version carrying url u1, created_time 3 and parent
p1 leaves the stored url, creation timestamp and parent collection
unchanged. -/
theorem reextraction_keeps_unlisted_fields :
    ((save_documents_to_db ⟨[sampleDoc "d"], [], []⟩
          [{ id := "d"
             title := "t1"
             content := "c1"
             url := "u1"
             created_time := 3
             last_edited_time := 4
             parent_database_id := "p1"
             properties := [] }] 9 none).fst.documents.find?
        (fun r => r.id == "d")).map
        (fun r => (r.url, r.created_time, r.parent_database_id)) =
      some ((sampleDoc "d").url, (sampleDoc "d").created_time, (sampleDoc "d").parent_database_id)
    ∧ (sampleDoc "d").url ≠ "u1"
    ∧ (sampleDoc "d").created_time ≠ 3
    ∧ (sampleDoc "d").parent_database_id ≠ "p1" := by
  decide

/-- C4 amended: on re-extraction of an already-stored document the
identity, url, creation timestamp and parent collection keep their
stored values, while title, content, last-modified timestamp and the
serialized metadata mapping are replaced with the newly extracted
values; no duplicate identity row is created, and re-running the save
with the same batch (distinct identities) and timestamp is idempotent. -/
theorem reextraction_updates_and_idempotent (db : Database) (d : NotionDocument) (now : Nat)
    (old : NotionDocumentDB) (docs : List NotionDocument)
    (hold : db.documents.find? (fun r => r.id == d.id) = some old)
    (hnodup : (docs.map (fun x => x.id)).Nodup) :
    ((save_documents_to_db db [d] now none).fst).documents.find? (fun r => r.id == d.id) =
      some (updatedDocumentRow d now old)
    ∧ ((updatedDocumentRow d now old).id, (updatedDocumentRow d now old).url,
        (updatedDocumentRow d now old).created_time,
        (updatedDocumentRow d now old).parent_database_id,
        (updatedDocumentRow d now old).title, (updatedDocumentRow d now old).content,
        (updatedDocumentRow d now old).last_edited_time,
        (updatedDocumentRow d now old).properties) =
      (old.id, old.url, old.created_time, old.parent_database_id,
        d.title, d.content, d.last_edited_time, propsToJson d.properties)
    ∧ ((save_documents_to_db db [d] now none).fst).documents.length = db.documents.length
    ∧ save_documents_to_db ((save_documents_to_db db docs now none).fst) docs now none =
        save_documents_to_db db docs now none := by
  have hfst : (save_documents_to_db db [d] now none).fst = processDocument db d now := by
    rw [save_documents_to_db_eq]
    rfl
  refine ⟨?_, rfl, ?_, ?_⟩
  · rw [hfst, documents_processDocument_self, hold]
  · rw [hfst]
    simp only [processDocument, hold]
    exact length_replaceFirst _ _ _
  · have h1 : save_documents_to_db db docs now none = (applyDocuments db docs now, none) :=
      save_documents_to_db_eq db docs now none
    have h2 : save_documents_to_db (applyDocuments db docs now) docs now none =
        (applyDocuments (applyDocuments db docs now) docs now, none) :=
      save_documents_to_db_eq (applyDocuments db docs now) docs now none
    rw [h1]
    show save_documents_to_db (applyDocuments db docs now) docs now none =
      (applyDocuments db docs now, none)
    rw [h2, applyDocuments_idempotent hnodup]

/-- C4 amended, witness: a store holding document d, re-extracted with
the same identity. -/
theorem reextraction_updates_and_idempotent_witness :
    ((save_documents_to_db ⟨[sampleDoc "d"], [], []⟩ [sampleDocument "d"] 9 none).fst).documents.find?
        (fun r => r.id == "d") =
      some (updatedDocumentRow (sampleDocument "d") 9 (sampleDoc "d"))
    ∧ save_documents_to_db
        ((save_documents_to_db ⟨[sampleDoc "d"], [], []⟩ [sampleDocument "d"] 9 none).fst)
        [sampleDocument "d"] 9 none =
      save_documents_to_db ⟨[sampleDoc "d"], [], []⟩ [sampleDocument "d"] 9 none :=
  ⟨(reextraction_updates_and_idempotent ⟨[sampleDoc "d"], [], []⟩ (sampleDocument "d") 9
      (sampleDoc "d") [sampleDocument "d"] rfl (by decide)).1,
    (reextraction_updates_and_idempotent ⟨[sampleDoc "d"], [], []⟩ (sampleDocument "d") 9
      (sampleDoc "d") [sampleDocument "d"] rfl (by decide)).2.2.2⟩

/-- C8 counterexample: a successful stage run does not clear the error
message. A record carrying error message x stays in that error message
after save_classifications_to_db succeeds for its document (the sample
record has document_id a). -/
theorem error_message_not_cleared :
    (save_classifications_to_db ⟨[], [], [sampleErrorRecord]⟩
        [sampleClassification "a"] 7 none).snd = none
    ∧ ((save_classifications_to_db ⟨[], [], [sampleErrorRecord]⟩
          [sampleClassification "a"] 7 none).fst.records.find?
        (fun r => r.document_id == "a")).map (fun r => r.error_message) =
      some (some "x") := by
  decide

/-- C8 amended: a successful save leaves the error message of an
existing processing record exactly as it was (it is never cleared);
only a record newly created by the save carries no error message. This
holds for both save_documents_to_db and save_classifications_to_db. -/
theorem error_message_untouched_on_success (db : Database) (d : NotionDocument)
    (c : DocumentClassification) (now : Nat) :
    (∀ r, db.records.find? (fun y => y.document_id == d.id) = some r →
      (((save_documents_to_db db [d] now none).fst).records.find?
          (fun y => y.document_id == d.id)).map (fun y => y.error_message) =
        some r.error_message)
    ∧ (db.records.find? (fun y => y.document_id == d.id) = none →
      (((save_documents_to_db db [d] now none).fst).records.find?
          (fun y => y.document_id == d.id)).map (fun y => y.error_message) =
        some none)
    ∧ (∀ r, db.records.find? (fun y => y.document_id == c.document_id) = some r →
      (((save_classifications_to_db db [c] now none).fst).records.find?
          (fun y => y.document_id == c.document_id)).map (fun y => y.error_message) =
        some r.error_message)
    ∧ (db.records.find? (fun y => y.document_id == c.document_id) = none →
      (((save_classifications_to_db db [c] now none).fst).records.find?
          (fun y => y.document_id == c.document_id)).map (fun y => y.error_message) =
        some none) := by
  have hd : (save_documents_to_db db [d] now none).fst = processDocument db d now := by
    rw [save_documents_to_db_eq]
    rfl
  have hc : (save_classifications_to_db db [c] now none).fst = processClassification db c now := by
    rw [save_classifications_to_db_eq]
    rfl
  refine ⟨?_, ?_, ?_, ?_⟩
  · intro r hr
    rw [hd, records_processDocument_self, hr]
    simp [extractionRecordUpdate]
  · intro hnone
    rw [hd, records_processDocument_self, hnone]
    simp [newExtractionRecord]
  · intro r hr
    rw [hc, records_processClassification_self, hr]
    simp [classificationRecordUpdate]
  · intro hnone
    rw [hc, records_processClassification_self, hnone]
    simp [newClassificationRecord]

/-- C8 amended, witness: a record for document a carrying error message
x keeps it through a successful extraction save, and a classification
save for b with no prior record creates one with no error message. -/
theorem error_message_untouched_on_success_witness :
    (((save_documents_to_db ⟨[], [], [sampleErrorRecord]⟩
          [sampleDocument "a"] 9 none).fst).records.find?
        (fun y => y.document_id == "a")).map (fun y => y.error_message) =
      some (some "x")
    ∧ (((save_classifications_to_db ⟨[], [], [sampleErrorRecord]⟩
          [sampleClassification "b"] 9 none).fst).records.find?
        (fun y => y.document_id == "b")).map (fun y => y.error_message) =
      some none :=
  ⟨(error_message_untouched_on_success ⟨[], [], [sampleErrorRecord]⟩ (sampleDocument "a")
      (sampleClassification "b") 9).1 sampleErrorRecord rfl,
    (error_message_untouched_on_success ⟨[], [], [sampleErrorRecord]⟩ (sampleDocument "a")
      (sampleClassification "b") 9).2.2.2 rfl⟩

end NotionProcessing
